import Mathlib

/-!
Verification of the record-filtering state machine of `whitedwarf.py`
(`process_text_file`, the Record Filter Engine).

The engine scans a text file line by line.  Its mutable state consists of the
booleans `OFF_COUNTY` and `RECORD_FLAG`, the pending buffer `LINES_LIST`, the
counters `TOTAL_COMPANIES_FOUND` / `TOTAL_COMPANIES_RECORDED`, and the lines
already written to the branches file (modelled here as the list `output`).

A line is a Python string; we embed it as a list of characters.  Python's
`str.startswith` becomes `List.isPrefixOf`, and Python's substring test
`t in line` becomes the function `lineContains` below.
-/

namespace WhiteDwarf

open scoped List

/-- A single input line (a Python string), embedded as its list of characters. -/
abbrev Line := List Char

/-- Python's substring containment `t in l`: `t` occurs contiguously in `l`.
Mirrors CPython semantics: the empty string is contained in every string. -/
def lineContains (t : Line) : Line → Bool
  | [] => t.isEmpty
  | c :: cs => t.isPrefixOf (c :: cs) || lineContains t cs

/-- The five fixed line tags checked by `process_text_file` (`whitedwarf.py`
lines 383-396).  Tag: file-envelope start. -/
def tagSTARTS : Line := "STARTS".data

/-- Tag: file-envelope end. -/
def tagENDS : Line := "ENDS".data

/-- Tag: company-boundary start. -/
def tagBLOCKSTARTS : Line := "BLOCKSTARTS".data

/-- Tag: county-boundary start. -/
def tagCOUNTYSTARTS : Line := "COUNTYSTARTS".data

/-- Tag: county-boundary end. -/
def tagCOUNTYENDS : Line := "COUNTYENDS".data

/-- The default target county code `TARGET_COD_TOM = "|3685|"`
(`whitedwarf.py` line 205). -/
def TARGET_COD_TOM : Line := "|3685|".data

/-- `line.startswith("STARTS") or line.startswith("ENDS")`
(`whitedwarf.py` line 383): the line is an envelope marker. -/
def isMarker (l : Line) : Bool :=
  tagSTARTS.isPrefixOf l || tagENDS.isPrefixOf l

/-- The per-file mutable state of `process_text_file` (`whitedwarf.py`
lines 370-374), together with the lines written so far to the output file. -/
structure EngineState where
  OFF_COUNTY : Bool
  RECORD_FLAG : Bool
  LINES_LIST : List Line
  TOTAL_COMPANIES_FOUND : Nat
  TOTAL_COMPANIES_RECORDED : Nat
  output : List Line
deriving DecidableEq

/-- The state at the top of `process_text_file`: both flags `False`, empty
buffer, zero counters, nothing written. -/
def initState : EngineState :=
  { OFF_COUNTY := false
    RECORD_FLAG := false
    LINES_LIST := []
    TOTAL_COMPANIES_FOUND := 0
    TOTAL_COMPANIES_RECORDED := 0
    output := [] }

/-- One iteration of the `while line:` loop of `process_text_file`
(`whitedwarf.py` lines 382-409), translated branch by branch:

* envelope markers are written through immediately;
* a `BLOCKSTARTS` line without the target code is buffered and opens a scan
  (`OFF_COUNTY = True`); with the target code it closes the scan; either way
  `TOTAL_COMPANIES_FOUND` is incremented;
* a `COUNTYSTARTS` line during a scan is buffered and raises `RECORD_FLAG`
  when it contains the target code;
* a `COUNTYENDS` line during a scan is buffered, the buffer is flushed to the
  output iff `RECORD_FLAG` is set (incrementing `TOTAL_COMPANIES_RECORDED`),
  and scan state is reset;
* any other line is buffered during a scan and otherwise ignored. -/
def step (target : Line) (s : EngineState) (line : Line) : EngineState :=
  if isMarker line then
    { s with output := s.output ++ [line] }
  else if tagBLOCKSTARTS.isPrefixOf line then
    if !(lineContains target line) then
      { s with LINES_LIST := s.LINES_LIST ++ [line]
               OFF_COUNTY := true
               TOTAL_COMPANIES_FOUND := s.TOTAL_COMPANIES_FOUND + 1 }
    else
      { s with OFF_COUNTY := false
               TOTAL_COMPANIES_FOUND := s.TOTAL_COMPANIES_FOUND + 1 }
  else if tagCOUNTYSTARTS.isPrefixOf line && s.OFF_COUNTY then
    { s with LINES_LIST := s.LINES_LIST ++ [line]
             RECORD_FLAG := s.RECORD_FLAG || lineContains target line }
  else if tagCOUNTYENDS.isPrefixOf line && s.OFF_COUNTY then
    if s.RECORD_FLAG then
      { s with output := s.output ++ (s.LINES_LIST ++ [line])
               TOTAL_COMPANIES_RECORDED := s.TOTAL_COMPANIES_RECORDED + 1
               OFF_COUNTY := false
               RECORD_FLAG := false
               LINES_LIST := [] }
    else
      { s with OFF_COUNTY := false
               RECORD_FLAG := false
               LINES_LIST := [] }
  else if s.OFF_COUNTY then
    { s with LINES_LIST := s.LINES_LIST ++ [line] }
  else
    s

/-- Run the loop over a list of lines starting from an arbitrary state. -/
def runLines (target : Line) (s : EngineState) (lines : List Line) : EngineState :=
  lines.foldl (step target) s

/-- The whole of `process_text_file` on the line sequence of one file:
run the loop from the initial state. -/
def process_text_file (target : Line) (lines : List Line) : EngineState :=
  runLines target initState lines

/-- A line with none of the five recognized tags: "ordinary content"
falling into the final `elif OFF_COUNTY` / implicit-else part of the loop. -/
def ordinaryLine (l : Line) : Bool :=
  !(isMarker l) && !(tagBLOCKSTARTS.isPrefixOf l) &&
    !(tagCOUNTYSTARTS.isPrefixOf l) && !(tagCOUNTYENDS.isPrefixOf l)

/-- Abbreviation for the counter pair read off a final state:
`TOTAL_COMPANIES_RECORDED ≤ TOTAL_COMPANIES_FOUND` together with strictness
while a scan is open.  This is the inductive invariant behind claim C10. -/
def counterInv (s : EngineState) : Prop :=
  s.TOTAL_COMPANIES_RECORDED ≤ s.TOTAL_COMPANIES_FOUND ∧
    (s.OFF_COUNTY = true →
      s.TOTAL_COMPANIES_RECORDED < s.TOTAL_COMPANIES_FOUND)

/-! ### Concrete lines used in witnesses and counterexamples -/

/-- The envelope-start line of the spec's concrete scenario. -/
def lineSTARTS : Line := "STARTS".data

/-- The envelope-end line of the spec's concrete scenario. -/
def lineENDS : Line := "ENDS".data

/-- An ordinary content line with no recognized tag. -/
def lineHello : Line := "hello-world".data

/-- A company-boundary start line whose home county is not the target. -/
def lineBS1111 : Line := "BLOCKSTARTS|1111|".data

/-- A second company-boundary start line, also off-county. -/
def lineBS2222 : Line := "BLOCKSTARTS|2222|".data

/-- A company-boundary start line embedding the target county code. -/
def lineBS3685 : Line := "BLOCKSTARTS|3685|".data

/-- A county-boundary start line embedding the target county code. -/
def lineCS3685 : Line := "COUNTYSTARTS|3685|".data

/-- A county-boundary start line embedding a non-target county code. -/
def lineCS9999 : Line := "COUNTYSTARTS|9999|".data

/-- A county-boundary end line. -/
def lineCE : Line := "COUNTYENDS".data

/-- The data row of the spec's concrete scenario. -/
def lineDataA : Line := "data-row-A".data

/-! ### Tag-exclusivity helpers

The `elif` chain of the loop tests the tags in a fixed order, so to know which
branch a line takes we need that a line carrying one tag cannot also carry an
earlier-tested tag.  Two lists that are both prefixes of the same list are
comparable, so it is enough that the two tags are not prefixes of one
another. -/

theorem isPrefixOf_false_of_ne {p q l : Line} (h : p.isPrefixOf l = true)
    (hpq : p.isPrefixOf q = false) (hqp : q.isPrefixOf p = false) :
    q.isPrefixOf l = false := by
  by_contra hq
  rw [Bool.not_eq_false] at hq
  rw [ List.isPrefixOf_iff_prefix] at h hq
  rcases List.prefix_or_prefix_of_prefix h hq with hc | hc
  · rw [← List.isPrefixOf_iff_prefix] at hc
    rw [hc] at hpq
    exact Bool.noConfusion hpq
  · rw [← List.isPrefixOf_iff_prefix] at hc
    rw [hc] at hqp
    exact Bool.noConfusion hqp

theorem not_marker_of_blockstarts {l : Line}
    (h : tagBLOCKSTARTS.isPrefixOf l = true) : isMarker l = false := by
  have h1 : tagSTARTS.isPrefixOf l = false :=
    isPrefixOf_false_of_ne h (by decide) (by decide)
  have h2 : tagENDS.isPrefixOf l = false :=
    isPrefixOf_false_of_ne h (by decide) (by decide)
  simp [isMarker, h1, h2]

theorem not_marker_of_countystarts {l : Line}
    (h : tagCOUNTYSTARTS.isPrefixOf l = true) : isMarker l = false := by
  have h1 : tagSTARTS.isPrefixOf l = false :=
    isPrefixOf_false_of_ne h (by decide) (by decide)
  have h2 : tagENDS.isPrefixOf l = false :=
    isPrefixOf_false_of_ne h (by decide) (by decide)
  simp [isMarker, h1, h2]

theorem not_marker_of_countyends {l : Line}
    (h : tagCOUNTYENDS.isPrefixOf l = true) : isMarker l = false := by
  have h1 : tagSTARTS.isPrefixOf l = false :=
    isPrefixOf_false_of_ne h (by decide) (by decide)
  have h2 : tagENDS.isPrefixOf l = false :=
    isPrefixOf_false_of_ne h (by decide) (by decide)
  simp [isMarker, h1, h2]

theorem not_blockstarts_of_countystarts {l : Line}
    (h : tagCOUNTYSTARTS.isPrefixOf l = true) :
    tagBLOCKSTARTS.isPrefixOf l = false :=
  isPrefixOf_false_of_ne h (by decide) (by decide)

theorem not_blockstarts_of_countyends {l : Line}
    (h : tagCOUNTYENDS.isPrefixOf l = true) :
    tagBLOCKSTARTS.isPrefixOf l = false :=
  isPrefixOf_false_of_ne h (by decide) (by decide)

theorem not_countystarts_of_countyends {l : Line}
    (h : tagCOUNTYENDS.isPrefixOf l = true) :
    tagCOUNTYSTARTS.isPrefixOf l = false :=
  isPrefixOf_false_of_ne h (by decide) (by decide)

/-! ### Single-step branch lemmas -/

theorem step_marker (t : Line) (s : EngineState) {l : Line}
    (h : isMarker l = true) :
    step t s l = { s with output := s.output ++ [l] } := by
  simp [step, h]

theorem step_blockstarts_scan (t : Line) (s : EngineState) {l : Line}
    (h : tagBLOCKSTARTS.isPrefixOf l = true) (hc : lineContains t l = false) :
    step t s l =
      { s with LINES_LIST := s.LINES_LIST ++ [l]
               OFF_COUNTY := true
               TOTAL_COMPANIES_FOUND := s.TOTAL_COMPANIES_FOUND + 1 } := by
  simp [step, not_marker_of_blockstarts h, h, hc]

theorem step_blockstarts_discard (t : Line) (s : EngineState) {l : Line}
    (h : tagBLOCKSTARTS.isPrefixOf l = true) (hc : lineContains t l = true) :
    step t s l =
      { s with OFF_COUNTY := false
               TOTAL_COMPANIES_FOUND := s.TOTAL_COMPANIES_FOUND + 1 } := by
  simp [step, not_marker_of_blockstarts h, h, hc]

theorem step_countystarts (t : Line) {s : EngineState} {l : Line}
    (h : tagCOUNTYSTARTS.isPrefixOf l = true) (hoff : s.OFF_COUNTY = true) :
    step t s l =
      { s with LINES_LIST := s.LINES_LIST ++ [l]
               RECORD_FLAG := s.RECORD_FLAG || lineContains t l } := by
  simp [step, not_marker_of_countystarts h, not_blockstarts_of_countystarts h,
    h, hoff]

theorem step_countyends_record (t : Line) {s : EngineState} {l : Line}
    (h : tagCOUNTYENDS.isPrefixOf l = true) (hoff : s.OFF_COUNTY = true)
    (hr : s.RECORD_FLAG = true) :
    step t s l =
      { s with output := s.output ++ (s.LINES_LIST ++ [l])
               TOTAL_COMPANIES_RECORDED := s.TOTAL_COMPANIES_RECORDED + 1
               OFF_COUNTY := false
               RECORD_FLAG := false
               LINES_LIST := [] } := by
  simp [step, not_marker_of_countyends h, not_blockstarts_of_countyends h,
    not_countystarts_of_countyends h, h, hoff, hr]

theorem step_countyends_norecord (t : Line) {s : EngineState} {l : Line}
    (h : tagCOUNTYENDS.isPrefixOf l = true) (hoff : s.OFF_COUNTY = true)
    (hr : s.RECORD_FLAG = false) :
    step t s l =
      { s with OFF_COUNTY := false
               RECORD_FLAG := false
               LINES_LIST := [] } := by
  simp [step, not_marker_of_countyends h, not_blockstarts_of_countyends h,
    not_countystarts_of_countyends h, h, hoff, hr]

theorem step_scan_ordinary (t : Line) {s : EngineState} {l : Line}
    (h : ordinaryLine l = true) (hoff : s.OFF_COUNTY = true) :
    step t s l = { s with LINES_LIST := s.LINES_LIST ++ [l] } := by
  simp only [ordinaryLine, Bool.and_eq_true, Bool.not_eq_true'] at h
  obtain ⟨⟨⟨hm, hb⟩, hcs⟩, hce⟩ := h
  simp [step, hm, hb, hcs, hce, hoff]

theorem step_outside_skip (t : Line) {s : EngineState} {l : Line}
    (hm : isMarker l = false) (hb : tagBLOCKSTARTS.isPrefixOf l = false)
    (hoff : s.OFF_COUNTY = false) :
    step t s l = s := by
  simp [step, hm, hb, hoff]

/-! ### Multi-step lemmas -/

theorem runLines_nil (t : Line) (s : EngineState) : runLines t s [] = s := rfl

theorem runLines_cons (t : Line) (s : EngineState) (l : Line) (ls : List Line) :
    runLines t s (l :: ls) = runLines t (step t s l) ls := rfl

theorem runLines_append (t : Line) (s : EngineState) (ls₁ ls₂ : List Line) :
    runLines t s (ls₁ ++ ls₂) = runLines t (runLines t s ls₁) ls₂ := by
  simp [runLines, List.foldl_append]

/-- While a scan is open, a run of ordinary lines is appended to the pending
buffer and changes nothing else. -/
theorem runLines_scan_ordinary (t : Line) :
    ∀ (ls : List Line) (s : EngineState), s.OFF_COUNTY = true →
      (∀ l ∈ ls, ordinaryLine l = true) →
      runLines t s ls = { s with LINES_LIST := s.LINES_LIST ++ ls } := by
  intro ls
  induction ls with
  | nil => intro s hoff _; simp [runLines_nil]
  | cons l ls ih =>
    intro s hoff hall
    rw [runLines_cons, step_scan_ordinary t (hall l (by simp)) hoff]
    rw [ih _ (by simp [hoff]) (fun x hx => hall x (by simp [hx]))]
    simp

/-- While no scan is open, lines that are neither envelope markers nor
company-boundary starts are ignored entirely. -/
theorem runLines_outside_skip (t : Line) :
    ∀ (ls : List Line) (s : EngineState), s.OFF_COUNTY = false →
      (∀ l ∈ ls, isMarker l = false ∧ tagBLOCKSTARTS.isPrefixOf l = false) →
      runLines t s ls = s := by
  intro ls
  induction ls with
  | nil => intro s _ _; rfl
  | cons l ls ih =>
    intro s hoff hall
    have h := hall l (by simp)
    rw [runLines_cons, step_outside_skip t h.1 h.2 hoff]
    exact ih _ hoff (fun x hx => hall x (by simp [hx]))

/-! ## Claim C1 -/

/-- C1, counterexample.  The claim says that a stream consisting only of
envelope markers and ordinary lines is reproduced exactly.  On the input
`STARTS`, `hello-world`, `ENDS` the engine outputs only `STARTS`, `ENDS`:
the ordinary line seen in the outside state is dropped (it reaches the final
`elif OFF_COUNTY` test with `OFF_COUNTY = False` and no branch fires), so the
output does not equal the input. -/
theorem C1_counterexample :
    (process_text_file TARGET_COD_TOM [lineSTARTS, lineHello, lineENDS]).output =
      [lineSTARTS, lineENDS] ∧
    (process_text_file TARGET_COD_TOM [lineSTARTS, lineHello, lineENDS]).output ≠
      [lineSTARTS, lineHello, lineENDS] := by
  decide

/-- C1, amended.  For every input stream containing no company-boundary or
county-boundary tagged line, the output equals exactly the subsequence of
envelope-marker lines, in order: envelope markers pass through and ordinary
lines seen outside a block are dropped, not passed through. -/
theorem C1_amended_passthrough :
    ∀ (t : Line) (ls : List Line) (s : EngineState), s.OFF_COUNTY = false →
      (∀ l ∈ ls, tagBLOCKSTARTS.isPrefixOf l = false ∧
        tagCOUNTYSTARTS.isPrefixOf l = false ∧
        tagCOUNTYENDS.isPrefixOf l = false) →
      (runLines t s ls).output =
        s.output ++ ls.filter (fun l => isMarker l) := by
  intro t ls
  induction ls with
  | nil => intro s _ _; simp [runLines_nil]
  | cons l ls ih =>
    intro s hoff hall
    by_cases hm : isMarker l = true
    · rw [runLines_cons, step_marker t s hm]
      rw [ih _ (by simp [hoff]) (fun x hx => hall x (by simp [hx]))]
      simp [hm]
    · have hm' : isMarker l = false := by simpa using hm
      rw [runLines_cons, step_outside_skip t hm' (hall l (by simp)).1 hoff]
      rw [ih _ hoff (fun x hx => hall x (by simp [hx]))]
      simp [hm']

/-- C1 witness: the amended theorem applied to the concrete stream
`STARTS`, `hello-world`, `ENDS` from the initial state. -/
theorem C1_amended_passthrough_witness :
    (process_text_file TARGET_COD_TOM [lineSTARTS, lineHello, lineENDS]).output =
      [lineSTARTS, lineENDS] := by
  have h := C1_amended_passthrough TARGET_COD_TOM
    [lineSTARTS, lineHello, lineENDS] initState (by decide) (by decide)
  rw [process_text_file, h]
  decide

/-! ## Claim C2 -/

/-- C2, counterexample.  The claim says the match flag is false and the
pending buffer holds exactly the new start line whenever a company-boundary
start line takes the scan branch, regardless of whether the previous company
block was terminated.  After `BLOCKSTARTS|1111|`, `COUNTYSTARTS|3685|`
(opening a block whose first sub-block matches the target but is never
closed), consuming `BLOCKSTARTS|2222|` takes the scan branch, yet the flag is
still true and the buffer holds all three lines, because the code resets
neither `RECORD_FLAG` nor `LINES_LIST` on that branch. -/
theorem C2_counterexample :
    (process_text_file TARGET_COD_TOM
        [lineBS1111, lineCS3685, lineBS2222]).RECORD_FLAG = true ∧
    (process_text_file TARGET_COD_TOM
        [lineBS1111, lineCS3685, lineBS2222]).LINES_LIST =
      [lineBS1111, lineCS3685, lineBS2222] ∧
    ([lineBS1111, lineCS3685, lineBS2222] : List Line) ≠ [lineBS2222] := by
  decide

/-- C2, amended.  When a company-boundary start line without the target code
is consumed from a state whose pending buffer is empty and whose match flag is
false — as holds whenever every previously opened company block was properly
terminated — the flag is (still) false at that moment and the buffer
afterwards holds exactly that one line.  In general the scan branch merely
appends to the existing buffer and leaves the flag untouched. -/
theorem C2_amended_fresh_state :
    ∀ (t : Line) (s : EngineState) (l : Line),
      s.LINES_LIST = [] → s.RECORD_FLAG = false →
      tagBLOCKSTARTS.isPrefixOf l = true → lineContains t l = false →
      (step t s l).RECORD_FLAG = false ∧ (step t s l).LINES_LIST = [l] := by
  intro t s l hbuf hflag hb hc
  rw [step_blockstarts_scan t s hb hc]
  simp [hbuf, hflag]

/-- C2 witness: the amended theorem applied to `BLOCKSTARTS|1111|` from the
initial state. -/
theorem C2_amended_fresh_state_witness :
    (step TARGET_COD_TOM initState lineBS1111).RECORD_FLAG = false ∧
    (step TARGET_COD_TOM initState lineBS1111).LINES_LIST = [lineBS1111] :=
  C2_amended_fresh_state TARGET_COD_TOM initState lineBS1111
    (by decide) (by decide) (by decide) (by decide)

/-! ## Claim C3 -/

/-- C3, counterexample.  The claim quantifies over every input stream.  After
`BLOCKSTARTS|1111|`, `COUNTYSTARTS|3685|` (a block whose matching sub-block is
never closed), the block `BLOCKSTARTS|2222|`, `COUNTYSTARTS|3685|`,
`COUNTYENDS` satisfies the claim's premise, but the flush at its
county-boundary end emits the stale buffer of the previous block as well: the
output is all five lines, not the second company's three lines. -/
theorem C3_counterexample :
    (process_text_file TARGET_COD_TOM
        [lineBS1111, lineCS3685, lineBS2222, lineCS3685, lineCE]).output =
      [lineBS1111, lineCS3685, lineBS2222, lineCS3685, lineCE] ∧
    ([lineBS1111, lineCS3685, lineBS2222, lineCS3685, lineCE] : List Line) ≠
      [lineBS2222, lineCS3685, lineCE] := by
  decide

/-- C3, amended.  First part: when the engine state is clean (no open scan,
flag false, empty buffer — as holds whenever every previously opened company
block was properly terminated), a company block whose start line lacks the
target code and whose first county sub-block's start line carries it is
emitted in full — start line through the sub-block's end line, verbatim and
in input order — with companies-seen and companies-kept each incremented by
one and the state clean again.  Second part: the spec's concrete six-line
scenario with target `|3685|` reproduces all six lines with both counters
equal to 1. -/
theorem C3_amended_single_match :
    (∀ (t : Line) (s : EngineState) (bs cs ce : Line) (mids rows : List Line),
      s.OFF_COUNTY = false → s.RECORD_FLAG = false → s.LINES_LIST = [] →
      tagBLOCKSTARTS.isPrefixOf bs = true → lineContains t bs = false →
      (∀ l ∈ mids, ordinaryLine l = true) →
      tagCOUNTYSTARTS.isPrefixOf cs = true → lineContains t cs = true →
      (∀ l ∈ rows, ordinaryLine l = true) →
      tagCOUNTYENDS.isPrefixOf ce = true →
      runLines t s (bs :: mids ++ cs :: rows ++ [ce]) =
        { s with
            output := s.output ++ (bs :: mids ++ cs :: rows ++ [ce])
            TOTAL_COMPANIES_FOUND := s.TOTAL_COMPANIES_FOUND + 1
            TOTAL_COMPANIES_RECORDED := s.TOTAL_COMPANIES_RECORDED + 1 }) ∧
    process_text_file TARGET_COD_TOM
        [lineSTARTS, lineBS1111, lineCS3685, lineDataA, lineCE, lineENDS] =
      { OFF_COUNTY := false, RECORD_FLAG := false, LINES_LIST := [],
        TOTAL_COMPANIES_FOUND := 1, TOTAL_COMPANIES_RECORDED := 1,
        output := [lineSTARTS, lineBS1111, lineCS3685, lineDataA, lineCE,
          lineENDS] } := by
  constructor
  · intro t s bs cs ce mids rows
    obtain ⟨off, flag, buf, nf, nr, out⟩ := s
    intro hoff hflag hbuf hbs hbc hmids hcs hcc hrows hce
    change off = false at hoff
    change flag = false at hflag
    change buf = [] at hbuf
    subst hoff; subst hflag; subst hbuf
    simp only [List.cons_append, List.append_assoc]
    have e1 : runLines t ⟨false, false, [], nf, nr, out⟩
          (bs :: (mids ++ cs :: (rows ++ [ce]))) =
        runLines t ⟨true, false, [bs], nf + 1, nr, out⟩
          (mids ++ cs :: (rows ++ [ce])) := by
      rw [runLines_cons, step_blockstarts_scan t _ hbs hbc]
      rfl
    have e2 : runLines t ⟨true, false, [bs], nf + 1, nr, out⟩
          (mids ++ cs :: (rows ++ [ce])) =
        runLines t ⟨true, false, [bs] ++ mids, nf + 1, nr, out⟩
          (cs :: (rows ++ [ce])) := by
      rw [runLines_append,
        runLines_scan_ordinary t mids ⟨true, false, [bs], nf + 1, nr, out⟩
          rfl hmids]
    have e3 : runLines t ⟨true, false, [bs] ++ mids, nf + 1, nr, out⟩
          (cs :: (rows ++ [ce])) =
        runLines t ⟨true, true, ([bs] ++ mids) ++ [cs], nf + 1, nr, out⟩
          (rows ++ [ce]) := by
      rw [runLines_cons,
        @step_countystarts t ⟨true, false, [bs] ++ mids, nf + 1, nr, out⟩ cs
          hcs rfl, hcc]
      rfl
    have e4 : runLines t ⟨true, true, ([bs] ++ mids) ++ [cs], nf + 1, nr, out⟩
          (rows ++ [ce]) =
        runLines t
          ⟨true, true, (([bs] ++ mids) ++ [cs]) ++ rows, nf + 1, nr, out⟩
          [ce] := by
      rw [runLines_append,
        runLines_scan_ordinary t rows
          ⟨true, true, ([bs] ++ mids) ++ [cs], nf + 1, nr, out⟩ rfl hrows]
    have e5 : runLines t
          ⟨true, true, (([bs] ++ mids) ++ [cs]) ++ rows, nf + 1, nr, out⟩
          [ce] =
        ⟨false, false, [], nf + 1, nr + 1,
          out ++ (((([bs] ++ mids) ++ [cs]) ++ rows) ++ [ce])⟩ := by
      rw [runLines_cons,
        @step_countyends_record t
          ⟨true, true, (([bs] ++ mids) ++ [cs]) ++ rows, nf + 1, nr, out⟩ ce
          hce rfl rfl, runLines_nil]
    rw [e1, e2, e3, e4, e5]
    simp [List.append_assoc]
  · decide

/-- C3 witness: the general part of the amended theorem applied, from the
initial state, to the four-line block `BLOCKSTARTS|1111|`,
`COUNTYSTARTS|3685|`, `data-row-A`, `COUNTYENDS` with target `|3685|`. -/
theorem C3_amended_single_match_witness :
    runLines TARGET_COD_TOM initState
        (lineBS1111 :: [] ++ lineCS3685 :: [lineDataA] ++ [lineCE]) =
      { initState with
          output := initState.output ++
            (lineBS1111 :: [] ++ lineCS3685 :: [lineDataA] ++ [lineCE])
          TOTAL_COMPANIES_FOUND := initState.TOTAL_COMPANIES_FOUND + 1
          TOTAL_COMPANIES_RECORDED :=
            initState.TOTAL_COMPANIES_RECORDED + 1 } :=
  C3_amended_single_match.1 TARGET_COD_TOM initState lineBS1111 lineCS3685
    lineCE [] [lineDataA] rfl rfl rfl (by decide) (by decide) (by decide)
    (by decide) (by decide) (by decide) (by decide)

/-! ## Claim C5 -/

/-- C5, counterexample.  The claim quantifies over every input stream.  After
`BLOCKSTARTS|1111|`, `COUNTYSTARTS|3685|` (an unterminated block that left
the match flag set), the block `BLOCKSTARTS|2222|`, `COUNTYSTARTS|9999|`,
`COUNTYENDS` has a non-matching first sub-block, so the claim demands zero
output lines for it; but the stale flag makes the county-boundary end flush
the buffer, emitting all five lines. -/
theorem C5_counterexample :
    (process_text_file TARGET_COD_TOM
        [lineBS1111, lineCS3685, lineBS2222, lineCS9999, lineCE]).output =
      [lineBS1111, lineCS3685, lineBS2222, lineCS9999, lineCE] ∧
    ((process_text_file TARGET_COD_TOM
        [lineBS1111, lineCS3685, lineBS2222, lineCS9999, lineCE]).output ≠
      []) := by
  decide

/-- C5, amended.  When the engine state is clean (no open scan, flag false,
empty buffer — as holds whenever every previously opened company block was
properly terminated), a company block whose first county sub-block's start
line lacks the target code produces zero output lines: after the sub-block's
end line the whole block has only incremented companies-seen, and any further
non-marker, non-company-boundary content — later sub-blocks even with the
target code, trailing lines — is neither buffered, nor evaluated, nor
emitted. -/
theorem C5_amended_first_subblock_only :
    ∀ (t : Line) (s : EngineState) (bs cs ce : Line)
      (mids rows trailing : List Line),
      s.OFF_COUNTY = false → s.RECORD_FLAG = false → s.LINES_LIST = [] →
      tagBLOCKSTARTS.isPrefixOf bs = true → lineContains t bs = false →
      (∀ l ∈ mids, ordinaryLine l = true) →
      tagCOUNTYSTARTS.isPrefixOf cs = true → lineContains t cs = false →
      (∀ l ∈ rows, ordinaryLine l = true) →
      tagCOUNTYENDS.isPrefixOf ce = true →
      (∀ l ∈ trailing,
        isMarker l = false ∧ tagBLOCKSTARTS.isPrefixOf l = false) →
      runLines t s (bs :: mids ++ cs :: rows ++ ce :: trailing) =
        { s with
            TOTAL_COMPANIES_FOUND := s.TOTAL_COMPANIES_FOUND + 1 } := by
  intro t s bs cs ce mids rows trailing
  obtain ⟨off, flag, buf, nf, nr, out⟩ := s
  intro hoff hflag hbuf hbs hbc hmids hcs hcc hrows hce htrail
  change off = false at hoff
  change flag = false at hflag
  change buf = [] at hbuf
  subst hoff; subst hflag; subst hbuf
  simp only [List.cons_append, List.append_assoc]
  have e1 : runLines t ⟨false, false, [], nf, nr, out⟩
        (bs :: (mids ++ cs :: (rows ++ ce :: trailing))) =
      runLines t ⟨true, false, [bs], nf + 1, nr, out⟩
        (mids ++ cs :: (rows ++ ce :: trailing)) := by
    rw [runLines_cons, step_blockstarts_scan t _ hbs hbc]
    rfl
  have e2 : runLines t ⟨true, false, [bs], nf + 1, nr, out⟩
        (mids ++ cs :: (rows ++ ce :: trailing)) =
      runLines t ⟨true, false, [bs] ++ mids, nf + 1, nr, out⟩
        (cs :: (rows ++ ce :: trailing)) := by
    rw [runLines_append,
      runLines_scan_ordinary t mids ⟨true, false, [bs], nf + 1, nr, out⟩
        rfl hmids]
  have e3 : runLines t ⟨true, false, [bs] ++ mids, nf + 1, nr, out⟩
        (cs :: (rows ++ ce :: trailing)) =
      runLines t ⟨true, false, ([bs] ++ mids) ++ [cs], nf + 1, nr, out⟩
        (rows ++ ce :: trailing) := by
    rw [runLines_cons,
      @step_countystarts t ⟨true, false, [bs] ++ mids, nf + 1, nr, out⟩ cs
        hcs rfl, hcc]
    rfl
  have e4 : runLines t ⟨true, false, ([bs] ++ mids) ++ [cs], nf + 1, nr, out⟩
        (rows ++ ce :: trailing) =
      runLines t
        ⟨true, false, (([bs] ++ mids) ++ [cs]) ++ rows, nf + 1, nr, out⟩
        (ce :: trailing) := by
    rw [runLines_append,
      runLines_scan_ordinary t rows
        ⟨true, false, ([bs] ++ mids) ++ [cs], nf + 1, nr, out⟩ rfl hrows]
  have e5 : runLines t
        ⟨true, false, (([bs] ++ mids) ++ [cs]) ++ rows, nf + 1, nr, out⟩
        (ce :: trailing) =
      runLines t ⟨false, false, [], nf + 1, nr, out⟩ trailing := by
    rw [runLines_cons,
      @step_countyends_norecord t
        ⟨true, false, (([bs] ++ mids) ++ [cs]) ++ rows, nf + 1, nr, out⟩ ce
        hce rfl rfl]
  have e6 : runLines t ⟨false, false, [], nf + 1, nr, out⟩ trailing =
      ⟨false, false, [], nf + 1, nr, out⟩ :=
    runLines_outside_skip t trailing ⟨false, false, [], nf + 1, nr, out⟩
      rfl htrail
  rw [e1, e2, e3, e4, e5, e6]

/-- C5 witness: the amended theorem applied, from the initial state, to the
block `BLOCKSTARTS|1111|`, `COUNTYSTARTS|9999|`, `data-row-A`, `COUNTYENDS`
followed by a later sub-block that does carry the target code — nothing is
emitted and only companies-seen is incremented. -/
theorem C5_amended_first_subblock_only_witness :
    runLines TARGET_COD_TOM initState
        (lineBS1111 :: [] ++ lineCS9999 :: [lineDataA] ++
          lineCE :: [lineCS3685, lineDataA, lineCE]) =
      { initState with
          TOTAL_COMPANIES_FOUND := initState.TOTAL_COMPANIES_FOUND + 1 } :=
  C5_amended_first_subblock_only TARGET_COD_TOM initState lineBS1111
    lineCS9999 lineCE [] [lineDataA] [lineCS3685, lineDataA, lineCE]
    rfl rfl rfl (by decide) (by decide) (by decide) (by decide) (by decide)
    (by decide) (by decide) (by decide)

/-! ## Claim C4 -/

/-- C4.  Starting from any engine state, a company block whose start line
contains the target county code contributes nothing: the start line is
consumed with only `TOTAL_COMPANIES_FOUND` incremented and `OFF_COUNTY`
cleared, and every following line of the block (anything that is neither an
envelope marker nor another company-boundary start, including matching county
sub-blocks) leaves the state — in particular the output, the pending buffer
and `TOTAL_COMPANIES_RECORDED` — completely unchanged. -/
theorem C4_home_county_exclusion :
    ∀ (t : Line) (s : EngineState) (bs : Line) (body : List Line),
      tagBLOCKSTARTS.isPrefixOf bs = true → lineContains t bs = true →
      (∀ l ∈ body, isMarker l = false ∧ tagBLOCKSTARTS.isPrefixOf l = false) →
      runLines t s (bs :: body) =
        { s with OFF_COUNTY := false
                 TOTAL_COMPANIES_FOUND := s.TOTAL_COMPANIES_FOUND + 1 } := by
  intro t s bs body hbs hbc hbody
  rw [runLines_cons, step_blockstarts_discard t s hbs hbc]
  exact runLines_outside_skip t body _ (by simp) hbody

/-- C4 witness: the spec's second scenario, `BLOCKSTARTS|3685|` followed by a
county sub-block that even matches the target, is fully discarded:
companies-seen becomes 1, nothing is written or buffered. -/
theorem C4_home_county_exclusion_witness :
    runLines TARGET_COD_TOM initState
        [lineBS3685, lineCS3685, lineDataA, lineCE] =
      { initState with
          OFF_COUNTY := false
          TOTAL_COMPANIES_FOUND := initState.TOTAL_COMPANIES_FOUND + 1 } :=
  C4_home_county_exclusion TARGET_COD_TOM initState lineBS3685
    [lineCS3685, lineDataA, lineCE] (by decide) (by decide) (by decide)

/-! ## Claim C6 -/

/-- A single loop iteration increments `TOTAL_COMPANIES_FOUND` exactly when
the line carries the company-boundary tag, whichever branch is then taken. -/
theorem step_found (t : Line) (s : EngineState) (l : Line) :
    (step t s l).TOTAL_COMPANIES_FOUND =
      s.TOTAL_COMPANIES_FOUND +
        (if tagBLOCKSTARTS.isPrefixOf l then 1 else 0) := by
  by_cases hb : tagBLOCKSTARTS.isPrefixOf l = true
  · by_cases hc : lineContains t l = true
    · rw [step_blockstarts_discard t s hb hc]; simp [hb]
    · rw [step_blockstarts_scan t s hb (by simpa using hc)]; simp [hb]
  · have hb' : tagBLOCKSTARTS.isPrefixOf l = false := by
      simp only [Bool.not_eq_true] at hb; exact hb
    simp only [step, hb', Bool.false_eq_true, if_false]
    split_ifs <;> simp

/-- C6.  For every input stream, the final `TOTAL_COMPANIES_FOUND` counter
equals the number of input lines carrying the company-boundary start tag:
every such line adds exactly one, in the discard branch as in the scan
branch, and no other line touches the counter. -/
theorem C6_companies_seen_count :
    ∀ (t : Line) (ls : List Line) (s : EngineState),
      (runLines t s ls).TOTAL_COMPANIES_FOUND =
        s.TOTAL_COMPANIES_FOUND +
          ls.countP (fun l => tagBLOCKSTARTS.isPrefixOf l) := by
  intro t ls
  induction ls with
  | nil => intro s; simp [runLines_nil]
  | cons l ls ih =>
    intro s
    rw [runLines_cons, ih, step_found, List.countP_cons]
    omega

/-- C6 witness: on the five-company-line stream used for the counterexamples
the counter is 2, the number of `BLOCKSTARTS` lines. -/
theorem C6_companies_seen_count_witness :
    (runLines TARGET_COD_TOM initState
        [lineBS1111, lineCS3685, lineBS2222, lineCS9999, lineCE]).TOTAL_COMPANIES_FOUND =
      initState.TOTAL_COMPANIES_FOUND +
        ([lineBS1111, lineCS3685, lineBS2222, lineCS9999, lineCE].countP
          (fun l => tagBLOCKSTARTS.isPrefixOf l)) :=
  C6_companies_seen_count TARGET_COD_TOM
    [lineBS1111, lineCS3685, lineBS2222, lineCS9999, lineCE] initState

/-! ## Claim C8 -/

/-- C8.  In every engine state — outside a block, discarding, or scanning —
a line carrying the envelope-start or envelope-end tag is written to the
output immediately and nothing else changes; in particular it is never
appended to the pending buffer. -/
theorem C8_envelope_passthrough :
    ∀ (t : Line) (s : EngineState) (l : Line), isMarker l = true →
      step t s l = { s with output := s.output ++ [l] } :=
  fun t s _ h => step_marker t s h

/-- C8 witness: an `ENDS` line consumed in the middle of an open scan, with a
nonempty pending buffer and the match flag set, is written through at once
and the buffer is untouched. -/
theorem C8_envelope_passthrough_witness :
    step TARGET_COD_TOM
        { OFF_COUNTY := true, RECORD_FLAG := true,
          LINES_LIST := [lineBS1111, lineCS3685],
          TOTAL_COMPANIES_FOUND := 1, TOTAL_COMPANIES_RECORDED := 0,
          output := [lineSTARTS] } lineENDS =
      { OFF_COUNTY := true, RECORD_FLAG := true,
        LINES_LIST := [lineBS1111, lineCS3685],
        TOTAL_COMPANIES_FOUND := 1, TOTAL_COMPANIES_RECORDED := 0,
        output := [lineSTARTS] ++ [lineENDS] } :=
  C8_envelope_passthrough TARGET_COD_TOM
    { OFF_COUNTY := true, RECORD_FLAG := true,
      LINES_LIST := [lineBS1111, lineCS3685],
      TOTAL_COMPANIES_FOUND := 1, TOTAL_COMPANIES_RECORDED := 0,
      output := [lineSTARTS] } lineENDS (by decide)

/-! ## Claim C7 -/

/-- A single loop iteration can only extend the output at a county-boundary
end line: any other line adds exactly its own text when it is an envelope
marker and nothing otherwise. -/
theorem step_output_no_countyends (t : Line) (s : EngineState) {l : Line}
    (hce : tagCOUNTYENDS.isPrefixOf l = false) :
    (step t s l).output = s.output ++ (if isMarker l then [l] else []) := by
  by_cases hm : isMarker l = true
  · rw [step_marker t s hm]; simp [hm]
  · have hm' : isMarker l = false := by
      simp only [Bool.not_eq_true] at hm; exact hm
    simp only [step, hm', hce, Bool.false_eq_true, if_false,
      Bool.false_and]
    split_ifs <;> simp

/-- C7.  The engine is a total function, so structural malformation never
raises anything; this theorem pins down the two silent-drop behaviours.
First part: from any state — in particular mid-scan, with an open company
block in the pending buffer — if the rest of the stream contains no
county-boundary end line, the output gains exactly the envelope markers of
that rest: no line of the pending buffer is ever emitted, and the buffer dies
with the function.  Second part: a county-boundary end line consumed with no
open scan (`OFF_COUNTY` false) is a complete no-op, not an error. -/
theorem C7_silent_drop :
    (∀ (t : Line) (ls : List Line) (s : EngineState),
      (∀ l ∈ ls, tagCOUNTYENDS.isPrefixOf l = false) →
      (runLines t s ls).output =
        s.output ++ ls.filter (fun l => isMarker l)) ∧
    (∀ (t : Line) (s : EngineState) (l : Line),
      tagCOUNTYENDS.isPrefixOf l = true → s.OFF_COUNTY = false →
      step t s l = s) := by
  constructor
  · intro t ls
    induction ls with
    | nil => intro s _; simp [runLines_nil]
    | cons l ls ih =>
      intro s hall
      rw [runLines_cons, ih _ (fun x hx => hall x (by simp [hx]))]
      rw [step_output_no_countyends t s (hall l (by simp))]
      by_cases hm : isMarker l = true
      · simp [hm]
      · have hm' : isMarker l = false := by
          simp only [Bool.not_eq_true] at hm; exact hm
        simp [hm']
  · intro t s l hce hoff
    simp [step, not_marker_of_countyends hce, not_blockstarts_of_countyends
      hce, not_countystarts_of_countyends hce, hce, hoff]

/-- C7 witness: a stream that opens a scan block and ends without closing it
emits nothing at all, and a stray `COUNTYENDS` from the initial state leaves
the state untouched. -/
theorem C7_silent_drop_witness :
    (runLines TARGET_COD_TOM initState
        [lineBS1111, lineCS3685, lineDataA]).output = [] ∧
    step TARGET_COD_TOM initState lineCE = initState := by
  constructor
  · have h := C7_silent_drop.1 TARGET_COD_TOM
      [lineBS1111, lineCS3685, lineDataA] initState (by decide)
    rw [h]
    decide
  · exact C7_silent_drop.2 TARGET_COD_TOM initState lineCE
      (by decide) (by decide)

/-! ## Claim C9 -/

/-- One loop iteration preserves the order invariant behind claim C9: the
non-marker output followed by the pending buffer is a subsequence of the
input consumed so far, and the buffer never holds an envelope marker.  Here
the input grows by one line. -/
theorem step_kept_sublist (t : Line) (s : EngineState) (l : Line)
    (hbuf : ∀ x ∈ s.LINES_LIST, isMarker x = false) :
    ((step t s l).output.filter (fun x => !(isMarker x)) ++
        (step t s l).LINES_LIST) <+
      (s.output.filter (fun x => !(isMarker x)) ++ s.LINES_LIST) ++ [l] ∧
    (∀ x ∈ (step t s l).LINES_LIST, isMarker x = false) := by
  have hself : ∀ xs : List Line, (∀ x ∈ xs, isMarker x = false) →
      xs.filter (fun x => !(isMarker x)) = xs := by
    intro xs hxs
    exact List.filter_eq_self.mpr (fun a ha => by simp [hxs a ha])
  by_cases hm : isMarker l = true
  · rw [step_marker t s hm]
    constructor
    · simp only [hm]
      simp [List.filter_append, hm]
    · simpa using hbuf
  · have hm' : isMarker l = false := by
      simp only [Bool.not_eq_true] at hm; exact hm
    by_cases hb : tagBLOCKSTARTS.isPrefixOf l = true
    · by_cases hc : lineContains t l = true
      · rw [step_blockstarts_discard t s hb hc]
        exact ⟨List.sublist_append_left _ _, hbuf⟩
      · have hc' : lineContains t l = false := by
          simp only [Bool.not_eq_true] at hc; exact hc
        rw [step_blockstarts_scan t s hb hc']
        constructor
        · simp [List.append_assoc]
        · intro x hx
          rcases List.mem_append.mp hx with h | h
          · exact hbuf x h
          · simp only [List.mem_singleton] at h; subst h; exact hm'
    · have hb' : tagBLOCKSTARTS.isPrefixOf l = false := by
        simp only [Bool.not_eq_true] at hb; exact hb
      by_cases hoff : s.OFF_COUNTY = true
      · by_cases hcs : tagCOUNTYSTARTS.isPrefixOf l = true
        · rw [step_countystarts t hcs hoff]
          constructor
          · simp [List.append_assoc]
          · intro x hx
            rcases List.mem_append.mp hx with h | h
            · exact hbuf x h
            · simp only [List.mem_singleton] at h; subst h; exact hm'
        · have hcs' : tagCOUNTYSTARTS.isPrefixOf l = false := by
            simp only [Bool.not_eq_true] at hcs; exact hcs
          by_cases hce : tagCOUNTYENDS.isPrefixOf l = true
          · by_cases hr : s.RECORD_FLAG = true
            · rw [step_countyends_record t hce hoff hr]
              constructor
              · simp only [List.filter_append, List.append_nil]
                rw [hself s.LINES_LIST hbuf]
                simp [hm', List.append_assoc]
              · simp
            · have hr' : s.RECORD_FLAG = false := by
                simp only [Bool.not_eq_true] at hr; exact hr
              rw [step_countyends_norecord t hce hoff hr']
              constructor
              · simp only [List.append_nil]
                exact ((List.sublist_append_left _ _).trans
                  (List.sublist_append_left _ _))
              · simp
          · have hce' : tagCOUNTYENDS.isPrefixOf l = false := by
              simp only [Bool.not_eq_true] at hce; exact hce
            have e : step t s l =
                { s with LINES_LIST := s.LINES_LIST ++ [l] } := by
              simp [step, hm', hb', hcs', hce', hoff]
            rw [e]
            constructor
            · simp [List.append_assoc]
            · intro x hx
              rcases List.mem_append.mp hx with h | h
              · exact hbuf x h
              · simp only [List.mem_singleton] at h; subst h; exact hm'
      · have hoff' : s.OFF_COUNTY = false := by
          simp only [Bool.not_eq_true] at hoff; exact hoff
        rw [step_outside_skip t hm' hb' hoff']
        exact ⟨List.sublist_append_left _ _, hbuf⟩

/-- The order invariant extended over a whole run. -/
theorem runLines_kept_sublist (t : Line) :
    ∀ (ls : List Line) (s : EngineState),
      (∀ x ∈ s.LINES_LIST, isMarker x = false) →
      ((runLines t s ls).output.filter (fun x => !(isMarker x)) ++
          (runLines t s ls).LINES_LIST) <+
        (s.output.filter (fun x => !(isMarker x)) ++ s.LINES_LIST) ++ ls ∧
      (∀ x ∈ (runLines t s ls).LINES_LIST, isMarker x = false) := by
  intro ls
  induction ls with
  | nil =>
    intro s hbuf
    constructor
    · simp [runLines_nil]
    · simpa [runLines_nil] using hbuf
  | cons l ls ih =>
    intro s hbuf
    have hstep := step_kept_sublist t s l hbuf
    have ih' := ih (step t s l) hstep.2
    rw [runLines_cons]
    refine ⟨ih'.1.trans ?_, ih'.2⟩
    have h := hstep.1.append_right ls
    calc ((step t s l).output.filter (fun x => !(isMarker x)) ++
            (step t s l).LINES_LIST) ++ ls <+
          ((s.output.filter (fun x => !(isMarker x)) ++ s.LINES_LIST) ++ [l])
            ++ ls := h
      _ = (s.output.filter (fun x => !(isMarker x)) ++ s.LINES_LIST) ++
            (l :: ls) := by simp

/-- C9.  Every non-marker line of the output — i.e. the content of the kept
company blocks — is a subsequence of the input stream: kept blocks appear in
the output in their input order and the lines inside each kept block keep
their original relative order, never reordered. -/
theorem C9_order_preservation :
    ∀ (t : Line) (ls : List Line),
      ((process_text_file t ls).output.filter (fun x => !(isMarker x))) <+
        ls := by
  intro t ls
  have h := (runLines_kept_sublist t ls initState (by simp [initState])).1
  simp only [process_text_file] at *
  have h2 : ((runLines t initState ls).output.filter
      (fun x => !(isMarker x))) <+
      ((runLines t initState ls).output.filter (fun x => !(isMarker x)) ++
        (runLines t initState ls).LINES_LIST) :=
    List.sublist_append_left _ _
  refine h2.trans (h.trans ?_)
  simp [initState]

/-- C9 witness: on a stream whose kept block is interleaved with an envelope
marker, the non-marker output is still a subsequence of the input. -/
theorem C9_order_preservation_witness :
    ((process_text_file TARGET_COD_TOM
        [lineSTARTS, lineBS1111, lineCS3685, lineDataA, lineCE,
          lineENDS]).output.filter (fun x => !(isMarker x))) <+
      [lineSTARTS, lineBS1111, lineCS3685, lineDataA, lineCE, lineENDS] :=
  C9_order_preservation TARGET_COD_TOM
    [lineSTARTS, lineBS1111, lineCS3685, lineDataA, lineCE, lineENDS]

/-! ## Claim C10 -/

/-- One loop iteration preserves the counter invariant: recorded never
exceeds found, strictly while a scan is open. -/
theorem step_counterInv (t : Line) (s : EngineState) (l : Line)
    (h : counterInv s) : counterInv (step t s l) := by
  obtain ⟨hle, hlt⟩ := h
  by_cases hm : isMarker l = true
  · rw [step_marker t s hm]
    exact ⟨hle, hlt⟩
  · have hm' : isMarker l = false := by
      simp only [Bool.not_eq_true] at hm; exact hm
    by_cases hb : tagBLOCKSTARTS.isPrefixOf l = true
    · by_cases hc : lineContains t l = true
      · rw [step_blockstarts_discard t s hb hc]
        constructor
        · simp; omega
        · simp
      · have hc' : lineContains t l = false := by
          simp only [Bool.not_eq_true] at hc; exact hc
        rw [step_blockstarts_scan t s hb hc']
        constructor
        · simp; omega
        · simp; omega
    · have hb' : tagBLOCKSTARTS.isPrefixOf l = false := by
        simp only [Bool.not_eq_true] at hb; exact hb
      by_cases hoff : s.OFF_COUNTY = true
      · have hstrict := hlt hoff
        by_cases hcs : tagCOUNTYSTARTS.isPrefixOf l = true
        · rw [step_countystarts t hcs hoff]
          exact ⟨hle, fun _ => hstrict⟩
        · have hcs' : tagCOUNTYSTARTS.isPrefixOf l = false := by
            simp only [Bool.not_eq_true] at hcs; exact hcs
          by_cases hce : tagCOUNTYENDS.isPrefixOf l = true
          · by_cases hr : s.RECORD_FLAG = true
            · rw [step_countyends_record t hce hoff hr]
              constructor
              · simp; omega
              · simp
            · have hr' : s.RECORD_FLAG = false := by
                simp only [Bool.not_eq_true] at hr; exact hr
              rw [step_countyends_norecord t hce hoff hr']
              constructor
              · simpa using hle
              · simp
          · have hce' : tagCOUNTYENDS.isPrefixOf l = false := by
              simp only [Bool.not_eq_true] at hce; exact hce
            have e : step t s l =
                { s with LINES_LIST := s.LINES_LIST ++ [l] } := by
              simp [step, hm', hb', hcs', hce', hoff]
            rw [e]
            exact ⟨hle, fun _ => hstrict⟩
      · have hoff' : s.OFF_COUNTY = false := by
          simp only [Bool.not_eq_true] at hoff; exact hoff
        rw [step_outside_skip t hm' hb' hoff']
        exact ⟨hle, hlt⟩

/-- The counter invariant over a whole run. -/
theorem runLines_counterInv (t : Line) :
    ∀ (ls : List Line) (s : EngineState),
      counterInv s → counterInv (runLines t s ls) := by
  intro ls
  induction ls with
  | nil => intro s h; exact h
  | cons l ls ih =>
    intro s h
    rw [runLines_cons]
    exact ih _ (step_counterInv t s l h)

/-- C10.  At the end of any scan — and hence, since the input stream is
arbitrary, at every intermediate point of any scan — the companies-kept
counter is at most the companies-seen counter: a flush needs an open scan,
which was opened by a company-boundary start line that had already
incremented companies-seen. -/
theorem C10_recorded_le_found :
    ∀ (t : Line) (ls : List Line),
      (process_text_file t ls).TOTAL_COMPANIES_RECORDED ≤
        (process_text_file t ls).TOTAL_COMPANIES_FOUND := by
  intro t ls
  exact (runLines_counterInv t ls initState (by constructor <;> simp [initState])).1

end WhiteDwarf
